import Mathlib

/-!
Shallow embedding of `src/rekt_bot.py` (a Binance liquidation-alert bot):
the cluster aggregator (`process_liquidation`), the per-symbol enrichment
caches (`get_binance_oi`, `get_binance_funding`), the classifier
(`get_priority`, `get_mm_label`) and the alert price formatting in
`send_alert`.  Python floats are embedded as rationals; Python `None` as
`Option.none`; the mutable module-level dictionaries as explicit values
threaded through the functions; the `async` interleaving of the cache code
as a small-step relation.
-/

namespace RektBot

/-- A liquidation side, as the strings "LONG" / "SHORT" in the source. -/
inductive Side
  | LONG
  | SHORT
deriving DecidableEq, Repr

/-- Priority tiers: the keys of `PRIORITY_EMOJI` (rekt_bot.py lines 186-191). -/
inductive Priority
  | LOW
  | MEDIUM
  | HIGH
  | MAX
deriving DecidableEq, Repr

/-- Numeric rank of a tier in the order LOW < MEDIUM < HIGH < MAX. -/
def Priority.rank : Priority → ℕ
  | .LOW => 0
  | .MEDIUM => 1
  | .HIGH => 2
  | .MAX => 3

/-- Python truthiness of the optional float `oi_change` as used in
`get_priority`: `None` and `0.0` are falsy, every other float truthy. -/
def pyTruthy : Option ℚ → Bool
  | none => false
  | some v => v != 0

/-- `abs(oi_change)` where it is evaluated in `get_priority` (only under a
truthy `oi_change`; the `none` branch value is never relevant). -/
def oiAbs : Option ℚ → ℚ
  | none => 0
  | some v => |v|

/-- `get_priority(total, oi_change)` (rekt_bot.py lines 193-199):
`if total > 2_000_000 or (oi_change and abs(oi_change) > 10): "HIGH"
elif total > 500_000 or (oi_change and abs(oi_change) > 5): "MEDIUM"
else: "LOW"`. -/
def get_priority (total : ℚ) (oi_change : Option ℚ) : Priority :=
  if total > 2000000 ∨ (pyTruthy oi_change = true ∧ oiAbs oi_change > 10) then .HIGH
  else if total > 500000 ∨ (pyTruthy oi_change = true ∧ oiAbs oi_change > 5) then .MEDIUM
  else .LOW

/-- The market-maker labels returned by `get_mm_label` (lines 201-218). -/
inductive MMLabel
  | UNCLEAR
  | AGGRESSIVE_BUILD_UP
  | POSITION_BUILD_UP
  | LONG_INTEREST
  | AGGRESSIVE_CLOSE_OUT
  | POSITION_CLOSE_OUT
  | SHORT_INTEREST
  | SIDEWAYS
deriving DecidableEq, Repr

/-- `get_mm_label(oi_change, funding)` (rekt_bot.py lines 201-218).  The
`funding` parameter is part of the source signature; the body never reads
it. -/
def get_mm_label (oi_change : Option ℚ) (funding : Option ℚ) : MMLabel :=
  match oi_change with
  | none => .UNCLEAR
  | some v =>
    if v > 8 then .AGGRESSIVE_BUILD_UP
    else if v > 4 then .POSITION_BUILD_UP
    else if v > mkRat 3 2 then .LONG_INTEREST
    else if v < -8 then .AGGRESSIVE_CLOSE_OUT
    else if v < -4 then .POSITION_CLOSE_OUT
    else if v < -(mkRat 3 2) then .SHORT_INTEREST
    else .SIDEWAYS

/-- The number of decimal places `send_alert` renders the price with
(rekt_bot.py lines 236-244): `:.8f` below 0.0001, `:.6f` below 0.01,
`:.4f` below 1, `:.2f` otherwise. -/
def price_decimals (price : ℚ) : ℕ :=
  if price < mkRat 1 10000 then 8
  else if price < mkRat 1 100 then 6
  else if price < 1 then 4
  else 2

/-- One tuple `(now, usd_size, side, price)` appended to `clusters[symbol]`
(rekt_bot.py line 297). -/
structure Entry where
  observedAt : ℚ
  notionalUsd : ℚ
  side : Side
  price : ℚ
deriving DecidableEq, Repr

/-- The arguments of the `send_alert` task spawned when a cluster fires
(rekt_bot.py line 302). -/
structure Snapshot where
  symbol : String
  side : Side
  total : ℚ
  price : ℚ
deriving DecidableEq, Repr

/-- The configuration the aggregator reads: `MIN_LIQ_USD` and
`CLUSTER_WINDOW` (rekt_bot.py lines 24-25). -/
structure AggConfig where
  MIN_LIQ_USD : ℚ
  CLUSTER_WINDOW : ℚ
deriving DecidableEq, Repr

/-- The module-level `clusters = defaultdict(list)` (line 286): a total map
from symbol to its entry list, defaulting to `[]`. -/
def Clusters : Type := String → List Entry

/-- The eviction of line 296: keep exactly the entries with
`x[0] > now - CLUSTER_WINDOW`. -/
def liveEntries (cfg : AggConfig) (entries : List Entry) (now : ℚ) : List Entry :=
  entries.filter fun e => decide (now - cfg.CLUSTER_WINDOW < e.observedAt)

/-- `total = sum(x[1] for x in symbol_clusters)` (line 299). -/
def entriesTotal (entries : List Entry) : ℚ :=
  (entries.map Entry.notionalUsd).sum

/-- `process_liquidation(symbol, side, usd_size, price)` (rekt_bot.py lines
288-304), with `time.time()` passed in as `now` and the mutable `clusters`
dict threaded explicitly.  Returns the new `clusters` state and the
snapshot handed to `send_alert` when the cluster fires (`none` otherwise). -/
def process_liquidation (cfg : AggConfig) (clusters : Clusters) (symbol : String)
    (side : Side) (usd_size price now : ℚ) : Clusters × Option Snapshot :=
  if usd_size < cfg.MIN_LIQ_USD then (clusters, none)
  else
    let kept := liveEntries cfg (clusters symbol) now
    let symbol_clusters := kept ++ [⟨now, usd_size, side, price⟩]
    let total := entriesTotal symbol_clusters
    if total ≥ cfg.MIN_LIQ_USD * 3 then
      (fun s => if s = symbol then [] else clusters s,
       some ⟨symbol, side, total, price⟩)
    else
      (fun s => if s = symbol then symbol_clusters else clusters s, none)

/-- One decoded liquidation event as fed to `process_liquidation` by
`binance_ws` (lines 331-340), with its arrival wall-clock time. -/
structure Event where
  symbol : String
  side : Side
  usd_size : ℚ
  price : ℚ
  now : ℚ
deriving DecidableEq, Repr

/-- Folding `process_liquidation` over a sequence of observed events,
collecting every fired snapshot. -/
def run (cfg : AggConfig) (clusters : Clusters) : List Event → Clusters × List Snapshot
  | [] => (clusters, [])
  | e :: rest =>
    let r := process_liquidation cfg clusters e.symbol e.side e.usd_size e.price e.now
    let rr := run cfg r.1 rest
    (rr.1, r.2.toList ++ rr.2)

/-- The `_oi_cache` / `_funding_cache` dictionaries (lines 39-40):
symbol ↦ (value, timestamp), with `None` a representable cached value. -/
def Cache : Type := List (String × (Option ℚ × ℚ))

/-- Dictionary assignment `_cache[symbol] = (v, now)` (lines 103, 110, 135,
142, 168, 175, 182): the new binding shadows any older one under lookup. -/
def cacheStore (cache : Cache) (symbol : String) (v : Option ℚ) (ts : ℚ) : Cache :=
  (symbol, (v, ts)) :: cache

/-- Python's `round(x, 2)`; the claims below never depend on the tie case. -/
def round2 (x : ℚ) : ℚ := (round (x * 100) : ℤ) / 100

/-- Python's `round(x, 4)`; the claims below never depend on the tie case. -/
def round4 (x : ℚ) : ℚ := (round (x * 10000) : ℤ) / 10000

/-- The observable behaviour of the two upstream requests one
`get_binance_oi` fetch makes: `ok = false` models an exception anywhere in
the outer `try` (line 140), `histOk = false` an exception in the inner
`try` (line 132); `hist` is the list of `sumOpenInterest` samples. -/
structure OiUpstream where
  ok : Bool
  status : ℕ
  openInterest : ℚ
  histOk : Bool
  histStatus : ℕ
  hist : List ℚ
deriving DecidableEq, Repr

/-- The fetch path of `get_binance_oi` (lines 93-143), entered after a cache
miss or expiry: returns the result, the updated cache, and `true` because an
upstream request was issued. -/
def oi_fetch (up : OiUpstream) (cache : Cache) (symbol : String) (now : ℚ) :
    Option ℚ × Cache × Bool :=
  if up.ok = false then (none, cacheStore cache symbol none now, true)
  else if up.status ≠ 200 then (none, cacheStore cache symbol none now, true)
  else if up.openInterest = 0 then (none, cacheStore cache symbol none now, true)
  else
    let oi_prev := up.hist.getD 1 0
    let oi_change :=
      if up.histOk = true ∧ up.histStatus = 200 ∧ 2 ≤ up.hist.length ∧ 0 < oi_prev then
        round2 ((up.openInterest - oi_prev) / oi_prev * 100)
      else 0
    (some oi_change, cacheStore cache symbol (some oi_change) now, true)

/-- `get_binance_oi(symbol)` (rekt_bot.py lines 81-143) with `time.time()`
passed as `now`, the upstream responses as `up`, and `_oi_cache` threaded
explicitly.  The third component records whether an upstream request was
issued on this call. -/
def get_binance_oi (TTL : ℚ) (up : OiUpstream) (cache : Cache) (symbol : String)
    (now : ℚ) : Option ℚ × Cache × Bool :=
  match List.lookup symbol cache with
  | some (value, timestamp) =>
    if now - timestamp < TTL then (value, cache, false)
    else oi_fetch up cache symbol now
  | none => oi_fetch up cache symbol now

/-- The observable behaviour of the upstream request one
`get_binance_funding` fetch makes (lines 158-183). -/
structure FundingUpstream where
  ok : Bool
  status : ℕ
  lastFundingRate : ℚ
deriving DecidableEq, Repr

/-- The fetch path of `get_binance_funding` (lines 158-183). -/
def funding_fetch (up : FundingUpstream) (cache : Cache) (symbol : String) (now : ℚ) :
    Option ℚ × Cache × Bool :=
  if up.ok = false then (none, cacheStore cache symbol none now, true)
  else if up.status ≠ 200 then (none, cacheStore cache symbol none now, true)
  else
    let funding_percent := round4 (up.lastFundingRate * 100)
    (some funding_percent, cacheStore cache symbol (some funding_percent) now, true)

/-- `get_binance_funding(symbol)` (rekt_bot.py lines 146-183), embedded the
same way as `get_binance_oi`. -/
def get_binance_funding (TTL : ℚ) (up : FundingUpstream) (cache : Cache) (symbol : String)
    (now : ℚ) : Option ℚ × Cache × Bool :=
  match List.lookup symbol cache with
  | some (value, timestamp) =>
    if now - timestamp < TTL then (value, cache, false)
    else funding_fetch up cache symbol now
  | none => funding_fetch up cache symbol now

/-- Control point of one async task running the body of `get_binance_oi` /
`get_binance_funding` for one fixed symbol: `start` = about to run the
synchronous cache check (lines 86-89 / 151-153); `fetching` = suspended at
the awaited upstream request with that fetch in flight (line 100 / 165);
`done` = returned with the given result. -/
inductive TaskPC
  | start
  | fetching
  | done (result : Option ℚ)
deriving DecidableEq, Repr

/-- The shared state one cache key induces on the event loop: the cache slot
for that symbol, the number of upstream requests issued so far, and each
task's control point. -/
structure KeyState where
  cache : Option (Option ℚ × ℚ)
  upstreamCalls : ℕ
  tasks : List TaskPC
deriving DecidableEq, Repr

/-- All tasks in the scenario call within one TTL period, at wall time
`now`. -/
structure KeyConfig where
  TTL : ℚ
  now : ℚ
deriving DecidableEq, Repr

/-- The check of lines 86-88 / 151-153: the slot holds an entry younger than
the TTL. -/
def cacheIsLive (cfg : KeyConfig) : Option (Option ℚ × ℚ) → Bool
  | none => false
  | some (_, ts) => decide (cfg.now - ts < cfg.TTL)

/-- Interleaving semantics of the cache code for one key.  The synchronous
cache check and the cache write are separated by the awaited upstream
request, at which point any other task may run: `hit` returns a live cached
value with no upstream request; `missBegin` passes the check on a dead slot
and issues an upstream request; `fetchEnd` completes a fetch, writes the
cache and returns. -/
inductive KeyStep (cfg : KeyConfig) : KeyState → KeyState → Prop
  | hit (s : KeyState) (i : ℕ) (v : Option ℚ) (ts : ℚ)
      (htask : s.tasks.get? i = some .start)
      (hc : s.cache = some (v, ts))
      (hlive : cfg.now - ts < cfg.TTL) :
      KeyStep cfg s ⟨s.cache, s.upstreamCalls, s.tasks.set i (.done v)⟩
  | missBegin (s : KeyState) (i : ℕ)
      (htask : s.tasks.get? i = some .start)
      (hmiss : cacheIsLive cfg s.cache = false) :
      KeyStep cfg s ⟨s.cache, s.upstreamCalls + 1, s.tasks.set i .fetching⟩
  | fetchEnd (s : KeyState) (i : ℕ) (v : Option ℚ)
      (htask : s.tasks.get? i = some .fetching) :
      KeyStep cfg s ⟨some (v, cfg.now), s.upstreamCalls, s.tasks.set i (.done v)⟩

/-- The number of tasks still before their cache check. -/
def startCount (s : KeyState) : ℕ :=
  s.tasks.countP fun t => t == .start

/-! ## Theorems about the embedded program -/

/-- C10: the market label is independent of the funding-rate argument: for
every OI delta (present or absent) and every pair of funding values,
`get_mm_label` returns the same label; the funding input never influences
the label. -/
theorem C10_label_ignores_funding (oi f1 f2 : Option ℚ) :
    get_mm_label oi f1 = get_mm_label oi f2 := by
  cases oi <;> rfl

/-- C8 counterexample: no input at all makes `get_priority` return `MAX`,
so the tier `MAX` is unreachable, refuting the claim that every tier of
{LOW, MEDIUM, HIGH, MAX} is reachable. -/
theorem C8_counterexample : ¬ ∃ total oi, get_priority total oi = Priority.MAX := by
  rintro ⟨t, oi, h⟩
  unfold get_priority at h
  split_ifs at h

/-- C8 amended: the reachable codomain of `get_priority` is exactly
{LOW, MEDIUM, HIGH}: every result is one of these three, each of the three
is attained, and `MAX` (present only in the `PRIORITY_EMOJI` table) is
never returned. -/
theorem C8_codomain_three_tiers :
    (∀ total oi, get_priority total oi = Priority.LOW ∨
      get_priority total oi = Priority.MEDIUM ∨
      get_priority total oi = Priority.HIGH) ∧
    get_priority 100 none = Priority.LOW ∧
    get_priority 600000 none = Priority.MEDIUM ∧
    get_priority 3000000 none = Priority.HIGH := by
  refine ⟨fun total oi => ?_, by decide, by decide, by decide⟩
  unfold get_priority
  split_ifs <;> simp

/-- C9 counterexample: a price of 200 (above 100) is rendered with 2
decimal places, not 0, refuting "down to 0 decimal places for prices above
100". -/
theorem C9_counterexample :
    (100 : ℚ) < 200 ∧ price_decimals 200 = 2 ∧ price_decimals 200 ≠ 0 := by
  decide

/-- C9 amended: rendered price precision scales with magnitude — 8 decimal
places below 0.0001, antitone in the price, and bottoming out at 2 decimal
places for every price ≥ 1 (in particular above 100), never 0. -/
theorem C9_price_precision (p q : ℚ) (hpq : p ≤ q) :
    (p < mkRat 1 10000 → price_decimals p = 8) ∧
    (1 ≤ p → price_decimals p = 2) ∧
    price_decimals q ≤ price_decimals p := by
  have h1 : (mkRat 1 10000 : ℚ) < mkRat 1 100 := by decide
  have h2 : (mkRat 1 100 : ℚ) < 1 := by decide
  unfold price_decimals
  refine ⟨fun h => if_pos h, fun h => ?_, ?_⟩
  · rw [if_neg (by linarith), if_neg (by linarith), if_neg (by linarith)]
  · split_ifs <;> first | omega | linarith

/-- Witness for C9: evaluated at p = 1/20000, q = 1. -/
theorem C9_price_precision_witness :
    (mkRat 1 20000 : ℚ) ≤ 1 ∧
    ((mkRat 1 20000 < mkRat 1 10000 → price_decimals (mkRat 1 20000) = 8) ∧
     ((1:ℚ) ≤ mkRat 1 20000 → price_decimals (mkRat 1 20000) = 2) ∧
     price_decimals 1 ≤ price_decimals (mkRat 1 20000)) :=
  ⟨by decide, C9_price_precision (mkRat 1 20000) 1 (by decide)⟩

/-- Rank comparison of two `if / elif / else` priority ladders whose
conditions are pointwise implied. -/
lemma priority_rank_mono_aux {p1 q1 p2 q2 : Prop} [Decidable p1] [Decidable q1]
    [Decidable p2] [Decidable q2] (hp : p1 → p2) (hq : q1 → q2) :
    (if p1 then Priority.HIGH else if q1 then Priority.MEDIUM else Priority.LOW).rank ≤
      (if p2 then Priority.HIGH else if q2 then Priority.MEDIUM else Priority.LOW).rank := by
  split_ifs <;> simp only [Priority.rank] <;> first | omega | (exfalso; tauto)

/-- C6: `get_priority` is monotone non-decreasing in each argument with the
other fixed — in the total with the OI delta fixed (present or absent), and
in the absolute OI delta with the total fixed — in the tier order
LOW < MEDIUM < HIGH < MAX measured by `Priority.rank`. -/
theorem C6_priority_monotone (t1 t2 t : ℚ) (oi : Option ℚ) (d1 d2 : ℚ)
    (ht : t1 ≤ t2) (hd : |d1| ≤ |d2|) :
    (get_priority t1 oi).rank ≤ (get_priority t2 oi).rank ∧
    (get_priority t (some d1)).rank ≤ (get_priority t (some d2)).rank := by
  constructor
  · unfold get_priority
    refine priority_rank_mono_aux ?_ ?_ <;>
      · rintro (h | h)
        · exact Or.inl (lt_of_lt_of_le h ht)
        · exact Or.inr h
  · have habs : ∀ c : ℚ, 0 < c → |d1| > c → pyTruthy (some d2) = true ∧ |d2| > c := by
      intro c hc h1
      have hne : d2 ≠ 0 := by
        intro h0
        rw [h0] at hd
        simp at hd
        rw [hd] at h1
        simp at h1
        linarith
      exact ⟨by simp [pyTruthy, hne], lt_of_lt_of_le h1 hd⟩
    unfold get_priority
    refine priority_rank_mono_aux ?_ ?_ <;>
      · rintro (h | ⟨_, h⟩)
        · exact Or.inl h
        · simp only [oiAbs] at h ⊢
          exact Or.inr (by simpa [oiAbs] using habs _ (by norm_num) h)

/-- Witness for C6: evaluated at t1 = 0, t2 = 1, t = 0, oi absent,
d1 = 1, d2 = -2. -/
theorem C6_priority_monotone_witness :
    (0 : ℚ) ≤ 1 ∧ |(1 : ℚ)| ≤ |(-2 : ℚ)| ∧
    ((get_priority 0 none).rank ≤ (get_priority 1 none).rank ∧
     (get_priority 0 (some 1)).rank ≤ (get_priority 0 (some (-2))).rank) :=
  ⟨by decide, by decide, C6_priority_monotone 0 1 0 none 1 (-2) (by decide) (by decide)⟩

/-- C5: an event whose notional is below the configured minimum (negative
notionals included) is discarded with no state mutation and no snapshot,
and a run consisting only of such events never fires. -/
theorem C5_below_min_discarded (cfg : AggConfig) (clusters : Clusters) (symbol : String)
    (side : Side) (usd_size price now : ℚ) (events : List Event)
    (h1 : usd_size < cfg.MIN_LIQ_USD)
    (h2 : ∀ e ∈ events, e.usd_size < cfg.MIN_LIQ_USD) :
    process_liquidation cfg clusters symbol side usd_size price now = (clusters, none) ∧
    run cfg clusters events = (clusters, []) := by
  have hstep : ∀ (cl : Clusters) (sym : String) (sd : Side) (u p n : ℚ),
      u < cfg.MIN_LIQ_USD →
      process_liquidation cfg cl sym sd u p n = (cl, none) := by
    intro cl sym sd u p n h
    unfold process_liquidation
    rw [if_pos h]
  refine ⟨hstep clusters symbol side usd_size price now h1, ?_⟩
  clear h1
  induction events generalizing clusters with
  | nil => rfl
  | cons e rest ih =>
    have hrest := ih clusters (fun x hx => h2 x (List.mem_cons_of_mem _ hx))
    simp only [run, hstep clusters e.symbol e.side e.usd_size e.price e.now
      (h2 e (List.mem_cons_self _ _)), hrest]
    rfl

/-- Witness for C5: minimum 100, one 50-notional event and a run of one
40-notional event, starting from the empty cluster map. -/
theorem C5_below_min_discarded_witness :
    process_liquidation ⟨100, 60⟩ (fun _ => []) "BTCUSDT" Side.LONG 50 1 0 =
      ((fun _ => []), none) ∧
    run ⟨100, 60⟩ (fun _ => []) [⟨"BTCUSDT", Side.LONG, 40, 1, 0⟩] = ((fun _ => []), []) :=
  C5_below_min_discarded ⟨100, 60⟩ (fun _ => []) "BTCUSDT" Side.LONG 50 1 0
    [⟨"BTCUSDT", Side.LONG, 40, 1, 0⟩] (by decide) (by decide)

/-- Characterization of `process_liquidation` on an admitted event (notional
not below the minimum): evict, append, total, threshold test. -/
lemma process_liquidation_admitted (cfg : AggConfig) (clusters : Clusters) (symbol : String)
    (side : Side) (usd_size price now : ℚ) (hmin : ¬ usd_size < cfg.MIN_LIQ_USD) :
    process_liquidation cfg clusters symbol side usd_size price now =
      if entriesTotal (liveEntries cfg (clusters symbol) now) + usd_size ≥
          cfg.MIN_LIQ_USD * 3 then
        (fun s => if s = symbol then [] else clusters s,
         some ⟨symbol, side,
           entriesTotal (liveEntries cfg (clusters symbol) now) + usd_size, price⟩)
      else
        (fun s => if s = symbol then
            liveEntries cfg (clusters symbol) now ++ [⟨now, usd_size, side, price⟩]
          else clusters s, none) := by
  have htot : entriesTotal (liveEntries cfg (clusters symbol) now ++
      [⟨now, usd_size, side, price⟩]) =
      entriesTotal (liveEntries cfg (clusters symbol) now) + usd_size := by
    simp [entriesTotal]
  simp only [process_liquidation, if_neg hmin, htot]

/-- C1: for an admitted event, the aggregator fires exactly when the total
notional over the symbol's live entries including the triggering event
reaches `MIN_LIQ_USD * 3`; when it fires it dispatches the snapshot
`(symbol, side, total, price)` and clears that symbol's entry list in the
same step, so the next event starts a fresh window. -/
theorem C1_fire_iff_threshold (cfg : AggConfig) (clusters : Clusters) (symbol : String)
    (side : Side) (usd_size price now : ℚ)
    (hmin : cfg.MIN_LIQ_USD ≤ usd_size) :
    ((process_liquidation cfg clusters symbol side usd_size price now).2.isSome ↔
      cfg.MIN_LIQ_USD * 3 ≤
        entriesTotal (liveEntries cfg (clusters symbol) now) + usd_size) ∧
    ((process_liquidation cfg clusters symbol side usd_size price now).2.isSome →
      (process_liquidation cfg clusters symbol side usd_size price now).1 symbol = [] ∧
      (process_liquidation cfg clusters symbol side usd_size price now).2 =
        some ⟨symbol, side,
          entriesTotal (liveEntries cfg (clusters symbol) now) + usd_size, price⟩) := by
  rw [process_liquidation_admitted cfg clusters symbol side usd_size price now
    (not_lt.mpr hmin)]
  split_ifs with hfire
  · exact ⟨iff_of_true rfl hfire, fun _ => ⟨by simp, rfl⟩⟩
  · refine ⟨iff_of_false (by simp) hfire, fun h => absurd h (by simp)⟩

/-- Witness for C1: minimum 100, window 60, one live 150-entry plus a
160-event at t = 20 fires with total 310 and clears the list. -/
theorem C1_fire_iff_threshold_witness :
    (((process_liquidation ⟨100, 60⟩ (fun _ => [⟨10, 150, Side.LONG, 1⟩]) "BTCUSDT"
        Side.SHORT 160 2 20).2.isSome ↔
      (100 : ℚ) * 3 ≤
        entriesTotal (liveEntries ⟨100, 60⟩ ((fun _ => [⟨10, 150, Side.LONG, 1⟩] :
          Clusters) "BTCUSDT") 20) + 160) ∧
     ((process_liquidation ⟨100, 60⟩ (fun _ => [⟨10, 150, Side.LONG, 1⟩]) "BTCUSDT"
        Side.SHORT 160 2 20).2.isSome →
      (process_liquidation ⟨100, 60⟩ (fun _ => [⟨10, 150, Side.LONG, 1⟩]) "BTCUSDT"
        Side.SHORT 160 2 20).1 "BTCUSDT" = [] ∧
      (process_liquidation ⟨100, 60⟩ (fun _ => [⟨10, 150, Side.LONG, 1⟩]) "BTCUSDT"
        Side.SHORT 160 2 20).2 =
        some ⟨"BTCUSDT", Side.SHORT,
          entriesTotal (liveEntries ⟨100, 60⟩ ((fun _ => [⟨10, 150, Side.LONG, 1⟩] :
            Clusters) "BTCUSDT") 20) + 160, 2⟩)) :=
  C1_fire_iff_threshold ⟨100, 60⟩ (fun _ => [⟨10, 150, Side.LONG, 1⟩]) "BTCUSDT"
    Side.SHORT 160 2 20 (by decide)

/-- C4 counterexample: with window 60 at now = 100, an entry observed at
exactly `now - CLUSTER_WINDOW = 40` satisfies `observedAt ≥ now - window`
but is evicted by the strict comparison of line 296, refuting "entries
exactly at the window boundary are retained". -/
theorem C4_counterexample :
    ((100 : ℚ) - 60 ≤ 40) ∧
    Entry.mk 40 150 Side.LONG 1 ∈ ((fun _ => [Entry.mk 40 150 Side.LONG 1] :
      Clusters) "B") ∧
    Entry.mk 40 150 Side.LONG 1 ∉
      ((process_liquidation ⟨100, 60⟩ (fun _ => [Entry.mk 40 150 Side.LONG 1]) "B"
        Side.SHORT 100 2 100).1 "B") := by
  with_unfolding_all decide

/-- C4 amended: the entries retained after eviction are exactly those with
`observedAt > now - CLUSTER_WINDOW` (strict: boundary entries are evicted);
the fired snapshot's total equals the sum of notionals over exactly those
entries plus the triggering event; and every entry stored after the call is
either a retained live entry or the new one, so no evicted entry
contributes to any later total. -/
theorem C4_eviction_strict_boundary (cfg : AggConfig) (clusters : Clusters)
    (symbol : String) (side : Side) (usd_size price now : ℚ) (e : Entry)
    (hmin : cfg.MIN_LIQ_USD ≤ usd_size) :
    (e ∈ liveEntries cfg (clusters symbol) now ↔
      e ∈ clusters symbol ∧ now - cfg.CLUSTER_WINDOW < e.observedAt) ∧
    (∀ snap, (process_liquidation cfg clusters symbol side usd_size price now).2 =
        some snap →
      snap.total = entriesTotal (liveEntries cfg (clusters symbol) now) + usd_size) ∧
    ((process_liquidation cfg clusters symbol side usd_size price now).2 = none →
      (process_liquidation cfg clusters symbol side usd_size price now).1 symbol =
        liveEntries cfg (clusters symbol) now ++ [⟨now, usd_size, side, price⟩]) ∧
    (∀ x ∈ (process_liquidation cfg clusters symbol side usd_size price now).1 symbol,
      x ∈ liveEntries cfg (clusters symbol) now ∨ x = ⟨now, usd_size, side, price⟩) := by
  refine ⟨by simp [liveEntries, List.mem_filter], ?_⟩
  rw [process_liquidation_admitted cfg clusters symbol side usd_size price now
    (not_lt.mpr hmin)]
  split_ifs with hfire
  · refine ⟨fun snap hsnap => ?_, by simp, fun x hx => ?_⟩
    · cases Option.some.injEq .. ▸ hsnap
      · rfl
    · simp at hx
  · refine ⟨fun snap hsnap => by simp at hsnap, fun _ => by simp, fun x hx => ?_⟩
    simp at hx
    rcases hx with h | h
    · exact Or.inl h
    · exact Or.inr h

/-- Witness for C4: minimum 100, window 60, a boundary entry at t = 40 with
now = 100 and an admitted 100-event. -/
theorem C4_eviction_strict_boundary_witness :
    ((Entry.mk 40 150 Side.LONG 1 ∈
        liveEntries ⟨100, 60⟩ ((fun _ => [Entry.mk 40 150 Side.LONG 1] : Clusters) "B") 100 ↔
      Entry.mk 40 150 Side.LONG 1 ∈ ((fun _ => [Entry.mk 40 150 Side.LONG 1] :
        Clusters) "B") ∧ (100 : ℚ) - 60 < (40 : ℚ)) ∧
     (∀ snap, (process_liquidation ⟨100, 60⟩ (fun _ => [Entry.mk 40 150 Side.LONG 1]) "B"
        Side.SHORT 100 2 100).2 = some snap →
      snap.total = entriesTotal (liveEntries ⟨100, 60⟩ ((fun _ =>
        [Entry.mk 40 150 Side.LONG 1] : Clusters) "B") 100) + 100) ∧
     ((process_liquidation ⟨100, 60⟩ (fun _ => [Entry.mk 40 150 Side.LONG 1]) "B"
        Side.SHORT 100 2 100).2 = none →
      (process_liquidation ⟨100, 60⟩ (fun _ => [Entry.mk 40 150 Side.LONG 1]) "B"
        Side.SHORT 100 2 100).1 "B" =
        liveEntries ⟨100, 60⟩ ((fun _ => [Entry.mk 40 150 Side.LONG 1] : Clusters) "B") 100 ++
          [⟨100, 100, Side.SHORT, 2⟩]) ∧
     (∀ x ∈ (process_liquidation ⟨100, 60⟩ (fun _ => [Entry.mk 40 150 Side.LONG 1]) "B"
        Side.SHORT 100 2 100).1 "B",
      x ∈ liveEntries ⟨100, 60⟩ ((fun _ => [Entry.mk 40 150 Side.LONG 1] : Clusters) "B") 100 ∨
        x = ⟨100, 100, Side.SHORT, 2⟩)) :=
  C4_eviction_strict_boundary ⟨100, 60⟩ (fun _ => [Entry.mk 40 150 Side.LONG 1]) "B"
    Side.SHORT 100 2 100 (Entry.mk 40 150 Side.LONG 1) (by decide)

/-- C2 counterexample: a successful open-interest fetch whose history lookup
returns a single sample makes `get_binance_oi` return (and cache) the
present value `some 0`, not the absent `none`; the label at a zero delta is
`SIDEWAYS`, not the no-data label `UNCLEAR`. -/
theorem C2_counterexample :
    (get_binance_oi 30 ⟨true, 200, 7, true, 200, [5]⟩ [] "B" 0).1 = some 0 ∧
    (get_binance_oi 30 ⟨true, 200, 7, true, 200, [5]⟩ [] "B" 0).1 ≠ none ∧
    get_mm_label (some 0) none = MMLabel.SIDEWAYS ∧
    get_mm_label none none = MMLabel.UNCLEAR ∧
    MMLabel.SIDEWAYS ≠ MMLabel.UNCLEAR := by
  with_unfolding_all decide

/-- C2 amended: when the open-interest history lookup yields fewer than two
samples, the enrichment result is the present value zero (`some 0`), cached
and returned; `get_mm_label` maps it to `SIDEWAYS` exactly as it maps a true
zero delta, while the explicit no-data label `UNCLEAR` is produced only for
an absent (`none`) delta and is distinct from `SIDEWAYS`. -/
theorem C2_short_history_yields_zero (TTL : ℚ) (up : OiUpstream) (cache : Cache)
    (symbol : String) (now : ℚ) (f : Option ℚ)
    (hok : up.ok = true) (hst : up.status = 200) (hoi : up.openInterest ≠ 0)
    (hhist : up.hist.length < 2)
    (hmiss : List.lookup symbol cache = none) :
    get_binance_oi TTL up cache symbol now =
      (some 0, cacheStore cache symbol (some 0) now, true) ∧
    get_mm_label (some 0) f = MMLabel.SIDEWAYS ∧
    get_mm_label none f = MMLabel.UNCLEAR ∧
    get_mm_label none f ≠ get_mm_label (some 0) f := by
  have hlab : get_mm_label (some 0) f = MMLabel.SIDEWAYS :=
    (by with_unfolding_all decide : get_mm_label (some 0) none = MMLabel.SIDEWAYS)
  refine ⟨?_, hlab, rfl, by rw [hlab]; exact fun h => MMLabel.noConfusion h⟩
  have hlen : ¬ (2 ≤ up.hist.length) := by omega
  simp only [get_binance_oi, hmiss, oi_fetch, hok, hst, hlen, hoi]
  simp

/-- Witness for C2: TTL 30, a 200-status fetch with open interest 7 and a
one-sample history, empty cache, funding absent. -/
theorem C2_short_history_yields_zero_witness :
    (get_binance_oi 30 ⟨true, 200, 7, true, 200, [5]⟩ [] "B" 0 =
      (some 0, cacheStore [] "B" (some 0) 0, true) ∧
     get_mm_label (some 0) none = MMLabel.SIDEWAYS ∧
     get_mm_label none none = MMLabel.UNCLEAR ∧
     get_mm_label none none ≠ get_mm_label (some 0) none) :=
  C2_short_history_yields_zero 30 ⟨true, 200, 7, true, 200, [5]⟩ [] "B" 0 none
    rfl rfl (by decide) (by decide) rfl

/-- C7: a call finding a cache entry younger than the TTL returns the cached
value with no upstream request and unchanged cache; a call finding an
expired entry issues a new upstream request; and a failed upstream lookup is
cached as an absent value with the same TTL, so a repeated call within the
TTL returns the cached absent value with no new upstream request. -/
theorem C7_ttl_discipline (TTL : ℚ) (up up2 : OiUpstream) (cache : Cache)
    (symbol : String) (v : Option ℚ) (ts now now2 : ℚ) :
    (List.lookup symbol cache = some (v, ts) → now - ts < TTL →
      get_binance_oi TTL up cache symbol now = (v, cache, false)) ∧
    (List.lookup symbol cache = some (v, ts) → TTL ≤ now - ts →
      (get_binance_oi TTL up cache symbol now).2.2 = true) ∧
    (up.ok = false → List.lookup symbol cache = none → now2 - now < TTL →
      get_binance_oi TTL up cache symbol now =
        (none, cacheStore cache symbol none now, true) ∧
      get_binance_oi TTL up2 (cacheStore cache symbol none now) symbol now2 =
        (none, cacheStore cache symbol none now, false)) := by
  have hfetch_called : ∀ c : Cache, (oi_fetch up c symbol now).2.2 = true := by
    intro c
    unfold oi_fetch
    split_ifs <;> rfl
  refine ⟨fun hc hl => ?_, fun hc hl => ?_, fun hfail hc hl => ⟨?_, ?_⟩⟩
  · simp only [get_binance_oi, hc]
    rw [if_pos hl]
  · simp only [get_binance_oi, hc]
    rw [if_neg (not_lt.mpr hl)]
    exact hfetch_called cache
  · simp only [get_binance_oi, hc]
    unfold oi_fetch
    rw [if_pos hfail]
  · have hl2 : List.lookup symbol (cacheStore cache symbol none now) = some (none, now) := by
      simp [cacheStore]
    simp only [get_binance_oi, hl2]
    rw [if_pos hl]

/-- Witness for C7: TTL 30; a hit at t = 10 on an entry from t = 0; an
expired entry at t = 31; and a failed fetch at t = 0 whose cached absent
value is returned at t = 10 with no new request. -/
theorem C7_ttl_discipline_witness :
    get_binance_oi 30 ⟨true, 200, 7, true, 200, [5, 6]⟩ [("B", (some 5, 0))] "B" 10 =
      (some 5, [("B", (some 5, 0))], false) ∧
    (get_binance_oi 30 ⟨true, 200, 7, true, 200, [5, 6]⟩ [("B", (some 5, 0))] "B" 31).2.2 =
      true ∧
    get_binance_oi 30 ⟨false, 200, 7, true, 200, [5, 6]⟩ [] "B" 0 =
      (none, cacheStore [] "B" none 0, true) ∧
    get_binance_oi 30 ⟨true, 200, 7, true, 200, [5, 6]⟩ (cacheStore [] "B" none 0) "B" 10 =
      (none, cacheStore [] "B" none 0, false) := by
  have h := C7_ttl_discipline 30 ⟨false, 200, 7, true, 200, [5, 6]⟩
    ⟨true, 200, 7, true, 200, [5, 6]⟩ [] "B" (some 5) 0 0 10
  have h2 := C7_ttl_discipline 30 ⟨true, 200, 7, true, 200, [5, 6]⟩
    ⟨true, 200, 7, true, 200, [5, 6]⟩ [("B", (some 5, 0))] "B" (some 5) 0 10 10
  have h3 := C7_ttl_discipline 30 ⟨true, 200, 7, true, 200, [5, 6]⟩
    ⟨true, 200, 7, true, 200, [5, 6]⟩ [("B", (some 5, 0))] "B" (some 5) 0 31 10
  obtain ⟨hcase3a, hcase3b⟩ := h.2.2 rfl rfl (by with_unfolding_all decide)
  exact ⟨h2.1 (by with_unfolding_all decide) (by with_unfolding_all decide),
    h3.2.1 (by with_unfolding_all decide) (by with_unfolding_all decide),
    hcase3a, hcase3b⟩

/-- Replacing a known element of a list shifts `countP` by the predicate's
values at the old and new elements. -/
lemma countP_set_balance (p : TaskPC → Bool) :
    ∀ (l : List TaskPC) (i : ℕ) (a b : TaskPC), l.get? i = some a →
      (l.set i b).countP p + (if p a then 1 else 0) =
        l.countP p + (if p b then 1 else 0)
  | [], i, _, _, h => by simp at h
  | x :: xs, 0, a, b, h => by
    simp only [List.get?] at h
    cases h
    simp only [List.set, List.countP_cons]
    omega
  | x :: xs, i + 1, a, b, h => by
    simp only [List.get?] at h
    have ih := countP_set_balance p xs i a b h
    simp only [List.set, List.countP_cons]
    omega

/-- One step of the cache interleaving never increases the sum of upstream
calls and tasks still before their check: a hit consumes a `start` without a
call, a miss consumes a `start` for exactly one call, and a fetch completion
changes neither. -/
lemma keyStep_calls_invariant {cfg : KeyConfig} {s s' : KeyState}
    (h : KeyStep cfg s s') :
    s'.upstreamCalls + startCount s' ≤ s.upstreamCalls + startCount s := by
  cases h with
  | hit i v ts htask hc hlive =>
    have hb := countP_set_balance (fun t => t == TaskPC.start) s.tasks i .start (.done v) htask
    simp only [startCount] at *
    simp at hb ⊢
    omega
  | missBegin i htask hmiss =>
    have hb := countP_set_balance (fun t => t == TaskPC.start) s.tasks i .start .fetching htask
    simp only [startCount] at *
    simp at hb ⊢
    omega
  | fetchEnd i v htask =>
    have hb := countP_set_balance (fun t => t == TaskPC.start) s.tasks i .fetching (.done v) htask
    simp only [startCount] at *
    simp at hb ⊢
    omega

/-- The invariant extends to every reachable state. -/
lemma keyReach_calls_bound {cfg : KeyConfig} {s0 s : KeyState}
    (h : Relation.ReflTransGen (KeyStep cfg) s0 s) :
    s.upstreamCalls + startCount s ≤ s0.upstreamCalls + startCount s0 := by
  induction h with
  | refl => exact le_refl _
  | tail hsteps hstep ih => exact le_trans (keyStep_calls_invariant hstep) ih

/-- `startCount` of `n` fresh tasks. -/
lemma startCount_replicate (n : ℕ) :
    startCount ⟨none, 0, List.replicate n TaskPC.start⟩ = n := by
  induction n with
  | zero => rfl
  | succ k ih =>
    simp only [startCount] at ih
    simp [startCount, List.replicate_succ, List.countP_cons, ih]

/-- C3 counterexample: from two concurrent callers and an empty cache slot,
the interleaving in which both run their cache check before either fetch
completes reaches a state with two upstream fetches in flight simultaneously
and two upstream calls issued for the same key within one TTL period,
refuting the single-flight claim. -/
theorem C3_counterexample :
    ∃ s : KeyState,
      Relation.ReflTransGen (KeyStep ⟨30, 0⟩) ⟨none, 0, [.start, .start]⟩ s ∧
      s.tasks = [.fetching, .fetching] ∧ 2 ≤ s.upstreamCalls := by
  refine ⟨⟨none, 2, [.fetching, .fetching]⟩, ?_, rfl, le_refl 2⟩
  have s1 : KeyStep ⟨30, 0⟩ ⟨none, 0, [.start, .start]⟩ ⟨none, 1, [.fetching, .start]⟩ :=
    KeyStep.missBegin ⟨none, 0, [.start, .start]⟩ 0 rfl rfl
  have s2 : KeyStep ⟨30, 0⟩ ⟨none, 1, [.fetching, .start]⟩ ⟨none, 2, [.fetching, .fetching]⟩ :=
    KeyStep.missBegin ⟨none, 1, [.fetching, .start]⟩ 1 rfl rfl
  exact Relation.ReflTransGen.head s1 (Relation.ReflTransGen.head s2 Relation.ReflTransGen.refl)

/-- C3 amended: the cache provides no single-flight deduplication —
concurrent callers that pass the cache check while a fetch is in flight each
issue their own upstream call (as `C3_counterexample` realizes) — but each
caller issues at most one upstream call and a caller finding a live entry
issues none, so from `n` concurrent callers within one TTL period at most
`n` upstream calls for the key are ever issued, rather than at most one. -/
theorem C3_no_single_flight_calls_bounded (cfg : KeyConfig) (n : ℕ) (s : KeyState)
    (h : Relation.ReflTransGen (KeyStep cfg) ⟨none, 0, List.replicate n .start⟩ s) :
    s.upstreamCalls ≤ n := by
  have hb := keyReach_calls_bound h
  rw [startCount_replicate n] at hb
  simp at hb
  omega

/-- Witness for C3's amended bound: one step of two callers yields one call,
within the bound of two. -/
theorem C3_no_single_flight_calls_bounded_witness :
    (⟨none, 1, [.fetching, .start]⟩ : KeyState).upstreamCalls ≤ 2 :=
  C3_no_single_flight_calls_bounded ⟨30, 0⟩ 2 ⟨none, 1, [.fetching, .start]⟩
    (Relation.ReflTransGen.single
      (KeyStep.missBegin ⟨none, 0, [.start, .start]⟩ 0 rfl rfl))

end RektBot
